import Mathlib

/-!
Shallow embedding of `celonis_data_push.py` (repository
`Python_datapush_Celonis`), covering the schema mapper, the SQL statement
builder, the transformation (delete-and-recreate) step, the chunked upload
of `push_to_celonis`, and the configuration / target-path handling of
`main`.  External platform calls (pycelonis) are modelled by an `Oracle` of
success/failure outcomes and the functions produce a trace of platform
events, mirroring the Python control flow (try/except blocks become
explicit escape flags).
-/

namespace Celonis

/-- A pandas dtype, as seen through the three predicates the source calls:
`pd.api.types.is_integer_dtype`, `pd.api.types.is_float_dtype`,
`pd.api.types.is_datetime64_any_dtype` (lines 75-77). -/
structure Dtype where
  isInteger : Bool
  isFloat : Bool
  isDatetime : Bool
deriving DecidableEq, Inhabited

/-- Function `get_sql_type` (lines 74-78): priority chain of dtype predicates with
`VARCHAR(2000)` as the safe default. -/
def get_sql_type (dtype : Dtype) : String :=
  if dtype.isInteger then "INT"
  else if dtype.isFloat then "FLOAT"
  else if dtype.isDatetime then "TIMESTAMP"
  else "VARCHAR(2000)"

/-- Sanitization `col.replace(" ", "_")` (line 82).  Python `str.replace` with a
single-character pattern replaces every occurrence, i.e. it is the
character-wise map sending a space to an underscore and leaving every
other character unchanged. -/
def sanitize_col (col : String) : String :=
  String.mk (col.data.map (fun c => if c = ' ' then '_' else c))

/-- One element of `columns_sql` (line 84): `'"{col_name}" {sql_type}'`. -/
def column_sql (col : String × Dtype) : String :=
  "\"" ++ sanitize_col col.1 ++ "\" " ++ get_sql_type col.2

/-- The derived destination schema: for each dataframe column, its
sanitized name and mapped SQL type (lines 80-84). -/
def schema (cols : List (String × Dtype)) : List (String × String) :=
  cols.map (fun col => (sanitize_col col.1, get_sql_type col.2))

/-- Statement `create_table_sql` (line 86). -/
def create_table_sql (table_name : String) (cols : List (String × Dtype)) : String :=
  "CREATE TABLE IF NOT EXISTS \"" ++ table_name ++ "\" (\n  "
    ++ String.intercalate ", " (cols.map column_sql) ++ "\n);"

/-- Effect of lines 94-102 on the statement stored in the
`TEST_TRANSFORMATION` transformation (`Option String` = the statement of
the named transformation if it exists): if it exists it is deleted and
recreated with the fresh statement, otherwise it is created. -/
def transformation_step (existing : Option String) (stmt : String) : Option String :=
  match existing with
  | some _ => some stmt
  | none => some stmt

/-- Constant `CHUNK_SIZE = 100000` (line 117). -/
def CHUNK_SIZE : Nat := 100000

/-- Count `num_chunks = (total_records + CHUNK_SIZE - 1) // CHUNK_SIZE` (line 140). -/
def num_chunks (total_records : Nat) : Nat :=
  (total_records + CHUNK_SIZE - 1) / CHUNK_SIZE

/-- Slice `df.iloc[start_idx:end_idx]` for chunk `i` (lines 144-146):
`start_idx = i * CHUNK_SIZE`, `end_idx = min((i + 1) * CHUNK_SIZE, total)`. -/
def chunk_of (df : List α) (i : Nat) : List α :=
  let start_idx := i * CHUNK_SIZE
  let end_idx := min ((i + 1) * CHUNK_SIZE) df.length
  (df.drop start_idx).take (end_idx - start_idx)

/-- The ordered list of chunks the loop of lines 143-146 slices out. -/
def chunks (df : List α) : List (List α) :=
  (List.range (num_chunks df.length)).map (chunk_of df)

/-- An in-memory dataframe: the column names with their dtypes, and the
rows (rows are abstract; only their count and identity matter here). -/
structure Table (α : Type) where
  cols : List (String × Dtype)
  rows : List α
deriving DecidableEq

/-- Platform events emitted by `push_to_celonis`: each constructor is one
call into the pycelonis handle (or a control event: the error log of the
swallowed transformation failure, the pacing sleep, the SUCCESS log line,
and the outer-except error log `fileError`). -/
inductive Ev (α : Type) where
  | getPool
  | findJob
  | createJob
  | genSql (sql : String)
  | getTransformations
  | deleteTransformation
  | createTransformation (name : String) (stmt : String)
  | executeJob
  | sleep
  | transformationError
  | getTable
  | append (rows : List α)
  | appendFailed
  | createTable (rows : List α)
  | successLog (records : Nat) (inserted : Nat) (chunkCount : Option Nat)
  | fileError
deriving DecidableEq

/-- Outcomes of the external platform calls: `true` means the call raises.
`appendFails i` covers a failure of `get_table`/`append` for chunk `i`
(for the single-chunk branch, index 0); `createTableFails i` a failure of
the fallback `create_table` for chunk `i`. -/
structure Oracle where
  getPoolFails : Bool
  findJobFails : Bool
  createJobFails : Bool
  transformationExists : Bool
  getTransformationsFails : Bool
  deleteFails : Bool
  createTransformationFails : Bool
  executeFails : Bool
  appendFails : Nat → Bool
  createTableFails : Nat → Bool

/-- Step 1 (lines 64-70): look the job up; on failure create it.  The
returned flag is `true` when an exception escapes to the outer handler
(which happens exactly when `create_job` itself raises, line 70). -/
def jobStep (o : Oracle) : List (Ev α) × Bool :=
  if o.findJobFails then
    if o.createJobFails then ([Ev.findJob, Ev.createJob], true)
    else ([Ev.findJob, Ev.createJob], false)
  else ([Ev.findJob], false)

/-- Tail of step 3 (lines 104-109): `data_job.execute()` then
`time.sleep(10)`; a failure of `execute` is caught by the step-3 handler
(line 111) and logged. -/
def executeStep (o : Oracle) : List (Ev α) :=
  if o.executeFails then [Ev.executeJob, Ev.transformationError]
  else [Ev.executeJob, Ev.sleep]

/-- Step 3 (lines 89-114): ensure the transformation holds the fresh
statement, then execute the job.  Every failure inside the `try` is caught
at line 111 and only logged (`transformationError`). -/
def transformationStep (o : Oracle) (sql : String) : List (Ev α) :=
  if o.getTransformationsFails then [Ev.getTransformations, Ev.transformationError]
  else
    [Ev.getTransformations] ++
    (if o.transformationExists then
      (if o.deleteFails then [Ev.deleteTransformation, Ev.transformationError]
       else [Ev.deleteTransformation,
             Ev.createTransformation "TEST_TRANSFORMATION" sql] ++
         (if o.createTransformationFails then [Ev.transformationError]
          else executeStep o))
     else
      [Ev.createTransformation "TEST_TRANSFORMATION" sql] ++
        (if o.createTransformationFails then [Ev.transformationError]
         else executeStep o))

/-- Small-file branch (lines 120-136): one append of the whole dataframe,
with a create-table fallback; a failure of the fallback itself escapes to
the outer handler. -/
def ingestSmall (o : Oracle) (df : List α) : List (Ev α) × Bool :=
  if o.appendFails 0 then
    if o.createTableFails 0 then
      ([Ev.getTable, Ev.appendFailed, Ev.createTable df], true)
    else
      ([Ev.getTable, Ev.appendFailed, Ev.createTable df,
        Ev.successLog df.length df.length none], false)
  else
    ([Ev.getTable, Ev.append df,
      Ev.successLog df.length df.length none], false)

/-- One iteration of the chunk loop (lines 143-164) for chunk `i` of `n`:
append-then-create fallback on the chunk, then the pacing sleep when `i`
is not the last index. -/
def chunkIter (o : Oracle) (df : List α) (n : Nat) (i : Nat) : List (Ev α) × Bool :=
  let c := chunk_of df i
  let pacing : List (Ev α) := if i < n - 1 then [Ev.sleep] else []
  if o.appendFails i then
    if o.createTableFails i then
      ([Ev.getTable, Ev.appendFailed, Ev.createTable c], true)
    else
      ([Ev.getTable, Ev.appendFailed, Ev.createTable c] ++ pacing, false)
  else ([Ev.getTable, Ev.append c] ++ pacing, false)

/-- Sequencing of fallible steps: run each in order, stopping at the first
whose exception escapes (Python control flow inside the outer `try`). -/
def runSeq : List (List (Ev α) × Bool) → List (Ev α) × Bool
  | [] => ([], false)
  | (t, e) :: rest =>
    if e then (t, true)
    else
      let r := runSeq rest
      (t ++ r.1, r.2)

/-- Large-file branch (lines 138-171): the chunk loop followed by the
SUCCESS log line reporting the full record count and the chunk count. -/
def ingestChunked (o : Oracle) (df : List α) : List (Ev α) × Bool :=
  let n := num_chunks df.length
  let r := runSeq ((List.range n).map (chunkIter o df n))
  if r.2 then (r.1, true)
  else (r.1 ++ [Ev.successLog df.length df.length (some n)], false)

/-- Step 4 dispatch (line 120): small files in one shot, large files in
chunks. -/
def ingest (o : Oracle) (df : List α) : List (Ev α) × Bool :=
  if df.length ≤ CHUNK_SIZE then ingestSmall o df else ingestChunked o df

/-- Body of the outer `try` of `push_to_celonis` (lines 59-171): pool
lookup, job step, SQL generation, transformation step, ingestion.  The
flag is `true` when an exception escapes to the outer handler (line 173). -/
def pushBody (o : Oracle) (table_name : String) (t : Table α) : List (Ev α) × Bool :=
  if o.getPoolFails then ([Ev.getPool], true)
  else
    let j := jobStep o (α := α)
    if j.2 then ([Ev.getPool] ++ j.1, true)
    else
      let sql := create_table_sql table_name t.cols
      let ing := ingest o t.rows
      ([Ev.getPool] ++ j.1 ++ [Ev.genSql sql] ++ transformationStep o sql ++ ing.1,
       ing.2)

/-- Function `push_to_celonis` (lines 45-174) for one file: `t = none` models
`read_file` returning `None` (line 52-54, immediate return); otherwise the
outer `try` runs and an escaping exception is logged (line 174). -/
def push_to_celonis (o : Oracle) (table_name : String) (t : Option (Table α)) :
    List (Ev α) :=
  match t with
  | none => []
  | some tb =>
    let b := pushBody o table_name tb
    if b.2 then b.1 ++ [Ev.fileError] else b.1

/-- Index of the last `'.'` in a character list, if any (Python
`p.rfind('.')` restricted to bare file names, which contain no path
separator). -/
def rfindDot : List Char → Option Nat
  | [] => none
  | c :: cs =>
    match rfindDot cs with
    | some i => some (i + 1)
    | none => if c = '.' then some 0 else none

/-- The extension part of `os.path.splitext` (CPython
`genericpath._splitext` with `sepIndex = -1`): the suffix from the last
dot, unless every character before that dot is itself a dot (then no
extension). -/
def splitext_ext (p : List Char) : List Char :=
  match rfindDot p with
  | none => []
  | some d => if (p.take d).any (fun c => c ≠ '.') then p.drop d else []

/-- Function `get_file_extension` (lines 24-25): the `splitext` extension,
lowercased. -/
def get_file_extension (p : String) : String :=
  String.mk ((splitext_ext p.data).map Char.toLower)

/-- The supported extensions of the directory filter (line 224). -/
def SUPPORTED : List String := [".csv", ".parquet", ".xls", ".xlsx"]

/-- Function `read_file` (lines 27-43): dispatch on the extension; `parse` is the
outcome of the corresponding `pd.read_*` call (`none` models a parse
error, caught at line 41 and turned into `None`); an unsupported
extension yields `None` (lines 38-40). -/
def read_file (p : String) (parse : Option (Table α)) : Option (Table α) :=
  let ext := get_file_extension p
  if ext = ".csv" then parse
  else if ext = ".parquet" then parse
  else if ext = ".xls" ∨ ext = ".xlsx" then parse
  else none

/-- Python truthiness of a resolved configuration value: `None` and the
empty string are falsy. -/
def truthy : Option String → Bool
  | none => false
  | some s => !s.isEmpty

/-- Resolution `args.x or os.getenv(...)` (lines 188-191): the CLI value when truthy,
otherwise the environment value. -/
def resolve (cli envVal : Option String) : Option String :=
  if truthy cli then cli else envVal

/-- The four configuration values as they come from one source (CLI or
environment); `none` = absent. -/
structure Config where
  path : Option String
  api_key : Option String
  instance_id : Option String
  pool_id : Option String

/-- List `missing_params` (lines 194-198): names of the non-truthy values, in
the order the source appends them. -/
def missing_params (path api_key instance_id pool_id : Option String) : List String :=
  (if truthy path then [] else ["path"]) ++
  (if truthy api_key then [] else ["api_key"]) ++
  (if truthy instance_id then [] else ["instance_id"]) ++
  (if truthy pool_id then [] else ["pool_id"])

/-- Base URL construction (lines 205-207). -/
def base_url (instance_id : String) : String :=
  if instance_id.startsWith "http" then instance_id
  else "https://" ++ instance_id ++ ".celonis.cloud/"

/-- One entry of `os.listdir(target_path)` together with the result of the
`os.path.isfile` check of line 222. -/
structure DirEntry where
  name : String
  isFile : Bool
deriving DecidableEq

/-- The resolved target path: a regular file, a directory with its
listing, or neither (line 238). -/
inductive Target where
  | file (path : String)
  | dir (entries : List DirEntry)
  | invalid
deriving DecidableEq

/-- Events of `main` after the configuration check. -/
inductive MainEv where
  | configError (missing : List String)
  | connectAttempt (url : String)
  | connectError
  | processFile (name : String)
  | sleepBetween
  | noFilesWarning
  | invalidPath
deriving DecidableEq

/-- Line 222: the listing restricted to regular files. -/
def listFiles (entries : List DirEntry) : List String :=
  (entries.filter (fun e => e.isFile)).map (fun e => e.name)

/-- Line 224: keep only the supported extensions. -/
def supportedFiles (entries : List DirEntry) : List String :=
  (listFiles entries).filter (fun f => SUPPORTED.contains (get_file_extension f))

/-- The `for i, file_name in enumerate(files)` loop (lines 230-237): push
each file, sleeping after every file except the last. -/
def filesLoop (files : List String) : List MainEv :=
  (List.range files.length).flatMap (fun i =>
    [MainEv.processFile (files.getD i "")] ++
    (if i < files.length - 1 then [MainEv.sleepBetween] else []))

/-- Target dispatch of `main` (lines 218-239). -/
def processTarget : Target → List MainEv
  | Target.file p => [MainEv.processFile p]
  | Target.dir entries =>
    let files := supportedFiles entries
    if files = [] then [MainEv.noFilesWarning]
    else filesLoop files
  | Target.invalid => [MainEv.invalidPath]

/-- Function `main` (lines 176-239) after argument parsing: resolve the
configuration, halt on missing values, build the base URL, connect
(`connectFails` = the `get_celonis` outcome), then dispatch on the target. -/
def main_trace (cli env : Config) (connectFails : Bool) (target : Target) :
    List MainEv :=
  let path := resolve cli.path env.path
  let api_key := resolve cli.api_key env.api_key
  let instance_id := resolve cli.instance_id env.instance_id
  let pool_id := resolve cli.pool_id env.pool_id
  let missing := missing_params path api_key instance_id pool_id
  if missing ≠ [] then [MainEv.configError missing]
  else
    let url := base_url (instance_id.getD "")
    if connectFails then [MainEv.connectAttempt url, MainEv.connectError]
    else [MainEv.connectAttempt url] ++ processTarget target

/-! ### Helper lemmas about the chunk partition -/

theorem take_min_length (l : List α) (m : Nat) :
    l.take (min m l.length) = l.take m := by
  rcases Nat.le_total m l.length with h | h
  · rw [Nat.min_eq_left h]
  · rw [Nat.min_eq_right h, List.take_length, List.take_of_length_le h]

theorem chunk_of_eq (df : List α) (i : Nat) :
    chunk_of df i = (df.drop (i * CHUNK_SIZE)).take CHUNK_SIZE := by
  show (df.drop (i * CHUNK_SIZE)).take (min ((i + 1) * CHUNK_SIZE) df.length - i * CHUNK_SIZE)
      = (df.drop (i * CHUNK_SIZE)).take CHUNK_SIZE
  have harg : min ((i + 1) * CHUNK_SIZE) df.length - i * CHUNK_SIZE
      = min (df.length - i * CHUNK_SIZE) CHUNK_SIZE := by
    have hmul : (i + 1) * CHUNK_SIZE = i * CHUNK_SIZE + CHUNK_SIZE := by ring
    omega
  rw [harg, ← List.length_drop, Nat.min_comm, take_min_length]

theorem join_take_drop (C : Nat) :
    ∀ (n : Nat) (l : List α), l.length ≤ n * C →
      ((List.range n).map (fun i => (l.drop (i * C)).take C)).flatten = l := by
  intro n
  induction n with
  | zero =>
    intro l hl
    simp only [Nat.zero_mul, Nat.le_zero] at hl
    simp [List.eq_nil_of_length_eq_zero hl]
  | succ n ih =>
    intro l hl
    rw [List.range_succ_eq_map, List.map_cons, List.map_map, List.flatten_cons]
    have hmap : (List.range n).map ((fun i => (l.drop (i * C)).take C) ∘ Nat.succ)
        = (List.range n).map (fun i => ((l.drop C).drop (i * C)).take C) := by
      apply List.map_congr_left
      intro i _
      have hmul : Nat.succ i * C = C + i * C := by
        rw [Nat.succ_mul, Nat.add_comm]
      simp [Function.comp, hmul, List.drop_drop]
    have hlen : (l.drop C).length ≤ n * C := by
      rw [Nat.succ_mul] at hl
      simp only [List.length_drop]
      omega
    rw [hmap, ih (l.drop C) hlen, Nat.zero_mul, List.drop_zero, List.take_append_drop]

theorem chunks_flatten (df : List α) : (chunks df).flatten = df := by
  unfold chunks
  have hrw : (List.range (num_chunks df.length)).map (chunk_of df)
      = (List.range (num_chunks df.length)).map
          (fun i => (df.drop (i * CHUNK_SIZE)).take CHUNK_SIZE) := by
    apply List.map_congr_left
    intro i _
    exact chunk_of_eq df i
  rw [hrw]
  apply join_take_drop
  unfold num_chunks CHUNK_SIZE
  omega

theorem chunks_length (df : List α) :
    (chunks df).length = num_chunks df.length := by
  simp [chunks]

/-- C1. For a table of `N` rows with `N > CHUNK_SIZE`, the chunk loop
of `push_to_celonis` (lines 140-146) partitions the rows into exactly
`ceil(N / CHUNK_SIZE)` chunks (the count `k` satisfies the ceiling bounds
`CHUNK_SIZE * (k - 1) < N ≤ CHUNK_SIZE * k` and equals the source's
formula `(N + CHUNK_SIZE - 1) / CHUNK_SIZE`); the chunks are contiguous,
non-overlapping and in original row order (their concatenation is the
original row list), their sizes sum to `N`, and every chunk except
possibly the last has exactly `CHUNK_SIZE` rows. -/
theorem chunk_partition (df : List α) (h : CHUNK_SIZE < df.length) :
    (chunks df).length = (df.length + CHUNK_SIZE - 1) / CHUNK_SIZE ∧
    CHUNK_SIZE * ((chunks df).length - 1) < df.length ∧
    df.length ≤ CHUNK_SIZE * (chunks df).length ∧
    (chunks df).flatten = df ∧
    ((chunks df).map List.length).sum = df.length ∧
    ∀ i, i + 1 < (chunks df).length → ((chunks df).getD i []).length = CHUNK_SIZE := by
  refine ⟨chunks_length df, ?_, ?_, chunks_flatten df, ?_, ?_⟩
  · rw [chunks_length]
    unfold num_chunks CHUNK_SIZE at *
    omega
  · rw [chunks_length]
    unfold num_chunks CHUNK_SIZE at *
    omega
  · rw [← List.length_flatten, chunks_flatten]
  · intro i hi
    rw [chunks_length] at hi
    have hin : i < num_chunks df.length := by omega
    have hget : (chunks df).getD i [] = chunk_of df i := by
      simp [chunks, List.getD_eq_getElem?_getD, List.getElem?_map, List.getElem?_range, hin]
    rw [hget, chunk_of_eq, List.length_take, List.length_drop]
    unfold num_chunks CHUNK_SIZE at *
    omega

/-- Witness for `chunk_partition`: a 250,000-row table (three chunks). -/
theorem chunk_partition_witness :
    CHUNK_SIZE < (List.replicate 250000 (0 : Nat)).length ∧
    (chunks (List.replicate 250000 (0 : Nat))).flatten
      = List.replicate 250000 (0 : Nat) := by
  have h : CHUNK_SIZE < (List.replicate 250000 (0 : Nat)).length := by
    rw [List.length_replicate]
    decide
  exact ⟨h, (chunk_partition _ h).2.2.2.1⟩

/-- C5. For a file with at most `CHUNK_SIZE` rows the single-shot
branch (lines 120-136) runs: if additionally the row count is positive,
the partition function would produce exactly one chunk equal to the whole
table; a single append of the entire table is attempted, and on append
failure a single `create_table` call is made with the full table, after
which the SUCCESS line reports the full record count. -/
theorem small_file_single_chunk (o : Oracle) (rows : List α)
    (h : rows.length ≤ CHUNK_SIZE) :
    ingest o rows = ingestSmall o rows ∧
    (0 < rows.length → chunks rows = [rows]) ∧
    (o.appendFails 0 = false →
      ingestSmall o rows = ([Ev.getTable, Ev.append rows,
        Ev.successLog rows.length rows.length none], false)) ∧
    (o.appendFails 0 = true → o.createTableFails 0 = false →
      ingestSmall o rows = ([Ev.getTable, Ev.appendFailed, Ev.createTable rows,
        Ev.successLog rows.length rows.length none], false)) := by
  refine ⟨by simp [ingest, h], ?_, ?_, ?_⟩
  · intro hpos
    have hnum : num_chunks rows.length = 1 := by
      unfold num_chunks CHUNK_SIZE at *
      omega
    have hchunk : chunk_of rows 0 = rows := by
      rw [chunk_of_eq, Nat.zero_mul, List.drop_zero, List.take_of_length_le h]
    simp [chunks, hnum, List.range_succ, hchunk]
  · intro ha
    simp [ingestSmall, ha]
  · intro ha hc
    simp [ingestSmall, ha, hc]

/-- Witness for `small_file_single_chunk`: a 50-row table with a failing
append (Scenario A / Scenario C, single-chunk case). -/
theorem small_file_single_chunk_witness :
    (List.replicate 50 (0 : Nat)).length ≤ CHUNK_SIZE ∧
    chunks (List.replicate 50 (0 : Nat)) = [List.replicate 50 (0 : Nat)] ∧
    ingestSmall
      (⟨false, false, false, false, false, false, false, false,
        fun _ => true, fun _ => false⟩ : Oracle)
      (List.replicate 50 (0 : Nat))
      = ([Ev.getTable, Ev.appendFailed, Ev.createTable (List.replicate 50 (0 : Nat)),
          Ev.successLog 50 50 none], false) := by
  have h : (List.replicate 50 (0 : Nat)).length ≤ CHUNK_SIZE := by
    rw [List.length_replicate]
    decide
  have hmain := small_file_single_chunk
    (⟨false, false, false, false, false, false, false, false,
      fun _ => true, fun _ => false⟩ : Oracle)
    (List.replicate 50 (0 : Nat)) h
  refine ⟨h, hmain.2.1 (by rw [List.length_replicate]; decide), ?_⟩
  rw [hmain.2.2.2 rfl rfl, List.length_replicate]

/-- C9. The provisioning step's delete-and-recreate of the
`TEST_TRANSFORMATION` transformation is content-stable: running the step
twice with the same table name and column schemas stores the same
statement both times, namely `create_table_sql`, which is a function of
the table name and the ordered column schemas only. -/
theorem provisioning_idempotent (s : Option String) (table_name : String)
    (cols : List (String × Dtype)) :
    transformation_step
        (transformation_step s (create_table_sql table_name cols))
        (create_table_sql table_name cols)
      = transformation_step s (create_table_sql table_name cols) ∧
    transformation_step s (create_table_sql table_name cols)
      = some (create_table_sql table_name cols) := by
  cases s <;> simp [transformation_step]

/-- C10. When `read_file` yields `None` (parse error or unsupported
extension), `push_to_celonis` returns immediately: its event trace is
empty, so no pool, job, transformation or table call is made. -/
theorem read_failure_no_effect (o : Oracle) (table_name p : String)
    (parse : Option (Table α)) (h : read_file p parse = none) :
    push_to_celonis o table_name (read_file p parse) = ([] : List (Ev α)) := by
  rw [h]
  rfl

/-- Witness for `read_failure_no_effect`: an unsupported `.txt` file whose
parse would even have succeeded. -/
theorem read_failure_no_effect_witness :
    push_to_celonis
      (⟨false, false, false, false, false, false, false, false,
        fun _ => false, fun _ => false⟩ : Oracle)
      "notes"
      (read_file "notes.txt" (some (⟨[], [0]⟩ : Table Nat))) = [] :=
  read_failure_no_effect _ _ _ _ (by decide)

/-- C4. The derived schema maps every column of the table: the
sanitized name keeps its length and has exactly the spaces replaced by
underscores (no other character is changed), and the SQL type follows the
priority rule integer → `INT`, float → `FLOAT`, datetime → `TIMESTAMP`,
otherwise → `VARCHAR(2000)`. -/
theorem schema_mapping (cols : List (String × Dtype)) (nm : String) (d : Dtype)
    (h : (nm, d) ∈ cols) :
    (sanitize_col nm, get_sql_type d) ∈ schema cols ∧
    (schema cols).length = cols.length ∧
    (sanitize_col nm).data.length = nm.data.length ∧
    (∀ i, i < nm.data.length →
      (sanitize_col nm).data.getD i ' '
        = (if nm.data.getD i ' ' = ' ' then '_' else nm.data.getD i ' ')) ∧
    (if d.isInteger then get_sql_type d = "INT"
     else if d.isFloat then get_sql_type d = "FLOAT"
     else if d.isDatetime then get_sql_type d = "TIMESTAMP"
     else get_sql_type d = "VARCHAR(2000)") := by
  refine ⟨?_, by simp [schema], by simp [sanitize_col], ?_, ?_⟩
  · exact List.mem_map_of_mem (fun col => (sanitize_col col.1, get_sql_type col.2)) h
  · intro i hi
    simp [sanitize_col, List.getD_eq_getElem?_getD, List.getElem?_map]
    cases hmem : nm.data[i]? with
    | none =>
      rw [List.getElem?_eq_none_iff] at hmem
      omega
    | some c => simp
  · rcases d with ⟨di, df, dt⟩
    cases di <;> cases df <;> cases dt <;> simp [get_sql_type]

/-- Witness for `schema_mapping`: the column `"order id"` of integer
dtype, in a two-column table. -/
theorem schema_mapping_witness :
    (sanitize_col "order id", get_sql_type (⟨true, false, false⟩ : Dtype))
      ∈ schema [("order id", ⟨true, false, false⟩), ("amount", ⟨false, true, false⟩)] ∧
    sanitize_col "order id" = "order_id" ∧
    get_sql_type (⟨true, false, false⟩ : Dtype) = "INT" := by
  refine ⟨(schema_mapping _ "order id" _ (by decide)).1, by decide, by decide⟩

/-! ### Helper lemmas about the chunked-upload trace -/

/-- The rows carried by an upload event (`append` or `createTable`). -/
def uploadedRows : Ev α → Option (List α)
  | Ev.append rows => some rows
  | Ev.createTable rows => some rows
  | _ => none

/-- Recognizer for the pacing sleep event. -/
def isSleep : Ev α → Bool
  | Ev.sleep => true
  | _ => false

/-- Recognizer for the events of the ingestion step (table calls and the
SUCCESS line). -/
def isIngestEv : Ev α → Bool
  | Ev.getTable => true
  | Ev.append _ => true
  | Ev.appendFailed => true
  | Ev.createTable _ => true
  | Ev.successLog _ _ _ => true
  | _ => false

theorem runSeq_all_ok (l : List (List (Ev α) × Bool))
    (h : ∀ x ∈ l, x.2 = false) :
    runSeq l = ((l.map Prod.fst).flatten, false) := by
  induction l with
  | nil => rfl
  | cons x rest ih =>
    have hx : x.2 = false := h x (List.mem_cons_self x rest)
    have hrest := ih (fun y hy => h y (List.mem_cons_of_mem x hy))
    rcases x with ⟨t, e⟩
    simp only [runSeq]
    simp only at hx
    simp [hx, hrest]

theorem chunkIter_ok (o : Oracle) (df : List α) (n i : Nat)
    (h : o.appendFails i = true → o.createTableFails i = false) :
    (chunkIter o df n i).2 = false := by
  unfold chunkIter
  cases ha : o.appendFails i with
  | false => simp [ha]
  | true => simp [ha, h ha]

theorem chunkIter_trace (o : Oracle) (df : List α) (n i : Nat)
    (h : o.appendFails i = true → o.createTableFails i = false) :
    (chunkIter o df n i).1 =
      (if o.appendFails i then
        [Ev.getTable, Ev.appendFailed, Ev.createTable (chunk_of df i)]
       else [Ev.getTable, Ev.append (chunk_of df i)]) ++
      (if i < n - 1 then [Ev.sleep] else []) := by
  unfold chunkIter
  cases ha : o.appendFails i with
  | false => simp [ha]
  | true => simp [ha, h ha]

theorem ingestChunked_trace (o : Oracle) (df : List α)
    (h : ∀ i, o.appendFails i = true → o.createTableFails i = false) :
    ingestChunked o df =
      (((List.range (num_chunks df.length)).map
          (fun i => (chunkIter o df (num_chunks df.length) i).1)).flatten
        ++ [Ev.successLog df.length df.length (some (num_chunks df.length))],
       false) := by
  have hall : ∀ x ∈ (List.range (num_chunks df.length)).map
      (chunkIter o df (num_chunks df.length)), x.2 = false := by
    intro x hx
    rw [List.mem_map] at hx
    obtain ⟨i, _, hxeq⟩ := hx
    rw [← hxeq]
    exact chunkIter_ok o df _ i (h i)
  simp only [ingestChunked]
  rw [runSeq_all_ok _ hall]
  simp only [List.map_map]
  rfl

theorem sum_range_if_lt (n k : Nat) :
    ((List.range n).map (fun i => if i < k then (1 : Nat) else 0)).sum
      = min n k := by
  induction n with
  | zero => simp
  | succ n ih =>
    rw [List.range_succ, List.map_append, List.sum_append, ih]
    cases Nat.lt_or_ge n k with
    | inl h => simp [h]; omega
    | inr h => simp [Nat.not_lt_of_ge h]; omega

theorem countP_chunkIter (o : Oracle) (df : List α) (n i : Nat)
    (h : o.appendFails i = true → o.createTableFails i = false) :
    ((chunkIter o df n i).1.countP (fun e => isSleep e))
      = if i < n - 1 then 1 else 0 := by
  rw [chunkIter_trace o df n i h, List.countP_append]
  by_cases hp : i < n - 1
  · cases ha : o.appendFails i <;>
      simp [ha, hp, isSleep, List.countP_cons, List.countP_nil]
  · cases ha : o.appendFails i <;>
      simp [ha, hp, isSleep, List.countP_cons, List.countP_nil]

theorem filterMap_chunkIter (o : Oracle) (df : List α) (n i : Nat)
    (h : o.appendFails i = true → o.createTableFails i = false) :
    ((chunkIter o df n i).1.filterMap uploadedRows) = [chunk_of df i] := by
  rw [chunkIter_trace o df n i h]
  by_cases hp : i < n - 1
  · cases ha : o.appendFails i <;>
      simp [ha, hp, uploadedRows, List.filterMap_cons]
  · cases ha : o.appendFails i <;>
      simp [ha, hp, uploadedRows, List.filterMap_cons]

/-- C2. In a multi-chunk upload where the fallback `create_table`
calls themselves succeed, every chunk is processed in order whatever the
append outcomes are: chunk `i`'s segment of the trace uses the fallback
exactly when its append fails and a plain append otherwise, no chunk is
aborted or rolled back (the rows carried by the upload events concatenate
to the whole table), and the trace ends with the SUCCESS line reporting
the full record count of the file. -/
theorem chunk_fallback_isolated (o : Oracle) (df : List α)
    (hlarge : CHUNK_SIZE < df.length)
    (hcreate : ∀ i, o.createTableFails i = false) :
    ingest o df = ingestChunked o df ∧
    (ingestChunked o df).2 = false ∧
    (ingestChunked o df).1 =
      (((List.range (num_chunks df.length)).map (fun i =>
        (if o.appendFails i then
          [Ev.getTable, Ev.appendFailed, Ev.createTable (chunk_of df i)]
         else [Ev.getTable, Ev.append (chunk_of df i)]) ++
        (if i < num_chunks df.length - 1 then [Ev.sleep] else []))).flatten
        ++ [Ev.successLog df.length df.length (some (num_chunks df.length))]) ∧
    ((ingestChunked o df).1.filterMap uploadedRows).flatten = df := by
  have hok : ∀ i, o.appendFails i = true → o.createTableFails i = false :=
    fun i _ => hcreate i
  have htr := ingestChunked_trace o df hok
  refine ⟨by simp [ingest, Nat.not_le.mpr hlarge], by rw [htr], ?_, ?_⟩
  · simp only [htr]
    congr 1
    congr 1
    apply List.map_congr_left
    intro i _
    exact chunkIter_trace o df _ i (hok i)
  · simp only [htr, List.filterMap_append, List.filterMap_flatten, List.map_map]
    have hmap : (List.range (num_chunks df.length)).map
        (List.filterMap uploadedRows ∘ fun i => (chunkIter o df (num_chunks df.length) i).1)
        = (List.range (num_chunks df.length)).map (fun i => [chunk_of df i]) := by
      apply List.map_congr_left
      intro i _
      exact filterMap_chunkIter o df _ i (hok i)
    rw [hmap]
    have hwrap : ∀ (L : List (List α)), (L.map (fun x => [x])).flatten = L := by
      intro L
      induction L with
      | nil => rfl
      | cons a t ih => simp [ih]
    have hsingle : ((List.range (num_chunks df.length)).map
        (fun i => [chunk_of df i])).flatten
        = (List.range (num_chunks df.length)).map (chunk_of df) := by
      have hcomp : (List.range (num_chunks df.length)).map (fun i => [chunk_of df i])
          = ((List.range (num_chunks df.length)).map (chunk_of df)).map (fun x => [x]) := by
        rw [List.map_map]
        rfl
      rw [hcomp]
      exact hwrap _
    have hnone : List.filterMap uploadedRows
        [Ev.successLog (α := α) df.length df.length (some (num_chunks df.length))] = [] := rfl
    rw [hsingle, hnone, List.append_nil]
    exact chunks_flatten df

/-- Witness for `chunk_fallback_isolated`: 250,000 rows where only chunk
1's append fails. -/
theorem chunk_fallback_isolated_witness :
    CHUNK_SIZE < (List.replicate 250000 (0 : Nat)).length ∧
    (ingestChunked
      (⟨false, false, false, false, false, false, false, false,
        fun i => i == 1, fun _ => false⟩ : Oracle)
      (List.replicate 250000 (0 : Nat))).2 = false ∧
    ((ingestChunked
      (⟨false, false, false, false, false, false, false, false,
        fun i => i == 1, fun _ => false⟩ : Oracle)
      (List.replicate 250000 (0 : Nat))).1.filterMap uploadedRows).flatten
      = List.replicate 250000 (0 : Nat) := by
  have h : CHUNK_SIZE < (List.replicate 250000 (0 : Nat)).length := by
    rw [List.length_replicate]
    decide
  have hmain := chunk_fallback_isolated
    (⟨false, false, false, false, false, false, false, false,
      fun i => i == 1, fun _ => false⟩ : Oracle)
    (List.replicate 250000 (0 : Nat)) h (fun _ => rfl)
  exact ⟨h, hmain.2.1, hmain.2.2.2⟩

/-- C8. A multi-chunk upload that produces `k` chunks and completes
(each chunk's append or fallback succeeds) performs exactly `k - 1`
pacing sleeps: one after every chunk except the last. -/
theorem inter_chunk_delays (o : Oracle) (df : List α)
    (hlarge : CHUNK_SIZE < df.length)
    (hok : ∀ i, o.appendFails i = true → o.createTableFails i = false) :
    ingest o df = ingestChunked o df ∧
    ((ingestChunked o df).1.countP (fun e => isSleep e))
      = (chunks df).length - 1 := by
  refine ⟨by simp [ingest, Nat.not_le.mpr hlarge], ?_⟩
  rw [ingestChunked_trace o df hok]
  simp only [List.countP_append, List.countP_flatten, List.map_map]
  have hmap : (List.range (num_chunks df.length)).map
      (List.countP (fun e => isSleep e) ∘ fun i => (chunkIter o df (num_chunks df.length) i).1)
      = (List.range (num_chunks df.length)).map
          (fun i => if i < num_chunks df.length - 1 then 1 else 0) := by
    apply List.map_congr_left
    intro i _
    exact countP_chunkIter o df _ i (hok i)
  rw [hmap, sum_range_if_lt, chunks_length]
  simp [isSleep, List.countP_cons]

/-- Witness for `inter_chunk_delays`: 250,000 rows, no failures, three
chunks, hence two sleeps. -/
theorem inter_chunk_delays_witness :
    CHUNK_SIZE < (List.replicate 250000 (0 : Nat)).length ∧
    ((ingestChunked
      (⟨false, false, false, false, false, false, false, false,
        fun _ => false, fun _ => false⟩ : Oracle)
      (List.replicate 250000 (0 : Nat))).1.countP (fun e => isSleep e))
      = (chunks (List.replicate 250000 (0 : Nat))).length - 1 := by
  have h : CHUNK_SIZE < (List.replicate 250000 (0 : Nat)).length := by
    rw [List.length_replicate]
    decide
  exact ⟨h, (inter_chunk_delays
    (⟨false, false, false, false, false, false, false, false,
      fun _ => false, fun _ => false⟩ : Oracle)
    (List.replicate 250000 (0 : Nat)) h (fun _ h' => by cases h')).2⟩

/-- C3, counterexample. When the job lookup fails and the subsequent
`create_job` call also fails, the exception escapes to the outer handler
(line 173): the provisioning failure is *not* swallowed with ingestion
still attempted — the trace contains no ingestion event at all and ends
with the file-level error. -/
theorem provisioning_failure_counterexample :
    (push_to_celonis
      (⟨false, true, true, false, false, false, false, false,
        fun _ => false, fun _ => false⟩ : Oracle)
      "T" (some (⟨[("a", ⟨true, false, false⟩)], [0]⟩ : Table Nat)))
      = [Ev.getPool, Ev.findJob, Ev.createJob, Ev.fileError] ∧
    ((push_to_celonis
      (⟨false, true, true, false, false, false, false, false,
        fun _ => false, fun _ => false⟩ : Oracle)
      "T" (some (⟨[("a", ⟨true, false, false⟩)], [0]⟩ : Table Nat))).countP
        (fun e => isIngestEv e)) = 0 := by
  constructor <;> rfl

/-- C3, amended. Provided the pool lookup succeeds and the
`create_job` call does not fail (which covers a successful lookup, where
it is never made), every failure of the remaining provisioning steps —
the job lookup itself, the transformation handling, and the job
execution — is logged and swallowed and the push proceeds to the
ingestion step, whose trace appears in full after the provisioning
trace. -/
theorem provisioning_failures_swallowed (o : Oracle) (table_name : String)
    (t : Table α) (hpool : o.getPoolFails = false)
    (hcj : o.createJobFails = false) :
    push_to_celonis o table_name (some t) =
      [Ev.getPool] ++ (jobStep o (α := α)).1
        ++ [Ev.genSql (create_table_sql table_name t.cols)]
        ++ transformationStep o (create_table_sql table_name t.cols)
        ++ (ingest o t.rows).1
        ++ (if (ingest o t.rows).2 then [Ev.fileError] else []) ∧
    (jobStep o (α := α)).2 = false := by
  have hjob : (jobStep o (α := α)).2 = false := by
    unfold jobStep
    cases hf : o.findJobFails <;> simp [hf, hcj]
  refine ⟨?_, hjob⟩
  show (let b := pushBody o table_name t
        if b.2 then b.1 ++ [Ev.fileError] else b.1) = _
  have hbody : pushBody o table_name t =
      ([Ev.getPool] ++ (jobStep o (α := α)).1
        ++ [Ev.genSql (create_table_sql table_name t.cols)]
        ++ transformationStep o (create_table_sql table_name t.cols)
        ++ (ingest o t.rows).1, (ingest o t.rows).2) := by
    simp only [pushBody, hpool, Bool.false_eq_true, if_false, hjob, List.append_assoc]
  rw [hbody]
  cases hi : (ingest o t.rows).2 <;> simp [List.append_assoc]

/-- Witness for `provisioning_failures_swallowed`: the job lookup fails
(job then created), the transformation delete fails; ingestion still
appears in the trace. -/
theorem provisioning_failures_swallowed_witness :
    push_to_celonis
      (⟨false, true, false, true, false, true, false, false,
        fun _ => false, fun _ => false⟩ : Oracle)
      "T" (some (⟨[("a", ⟨true, false, false⟩)], [0, 1]⟩ : Table Nat)) =
      [Ev.getPool]
        ++ (jobStep (⟨false, true, false, true, false, true, false, false,
              fun _ => false, fun _ => false⟩ : Oracle) (α := Nat)).1
        ++ [Ev.genSql (create_table_sql "T" [("a", ⟨true, false, false⟩)])]
        ++ transformationStep
            (⟨false, true, false, true, false, true, false, false,
              fun _ => false, fun _ => false⟩ : Oracle)
            (create_table_sql "T" [("a", ⟨true, false, false⟩)])
        ++ (ingest (⟨false, true, false, true, false, true, false, false,
              fun _ => false, fun _ => false⟩ : Oracle) [0, 1]).1
        ++ (if (ingest (⟨false, true, false, true, false, true, false, false,
              fun _ => false, fun _ => false⟩ : Oracle) [(0 : Nat), 1]).2
            then [Ev.fileError] else []) :=
  (provisioning_failures_swallowed _ "T" _ rfl rfl).1

/-- C6. When any of the four required configuration values is absent
(non-truthy from both CLI and environment), `main` halts with a single
aggregated error listing every missing field — the error list contains
each missing name, not just the first — and no connection attempt is
made. -/
theorem config_validation_aggregated (cli env : Config) (connectFails : Bool)
    (target : Target)
    (h : truthy (resolve cli.path env.path) = false ∨
         truthy (resolve cli.api_key env.api_key) = false ∨
         truthy (resolve cli.instance_id env.instance_id) = false ∨
         truthy (resolve cli.pool_id env.pool_id) = false) :
    main_trace cli env connectFails target =
      [MainEv.configError (missing_params
        (resolve cli.path env.path) (resolve cli.api_key env.api_key)
        (resolve cli.instance_id env.instance_id) (resolve cli.pool_id env.pool_id))] ∧
    (truthy (resolve cli.path env.path) = false →
      "path" ∈ missing_params
        (resolve cli.path env.path) (resolve cli.api_key env.api_key)
        (resolve cli.instance_id env.instance_id) (resolve cli.pool_id env.pool_id)) ∧
    (truthy (resolve cli.api_key env.api_key) = false →
      "api_key" ∈ missing_params
        (resolve cli.path env.path) (resolve cli.api_key env.api_key)
        (resolve cli.instance_id env.instance_id) (resolve cli.pool_id env.pool_id)) ∧
    (truthy (resolve cli.instance_id env.instance_id) = false →
      "instance_id" ∈ missing_params
        (resolve cli.path env.path) (resolve cli.api_key env.api_key)
        (resolve cli.instance_id env.instance_id) (resolve cli.pool_id env.pool_id)) ∧
    (truthy (resolve cli.pool_id env.pool_id) = false →
      "pool_id" ∈ missing_params
        (resolve cli.path env.path) (resolve cli.api_key env.api_key)
        (resolve cli.instance_id env.instance_id) (resolve cli.pool_id env.pool_id)) ∧
    ∀ u, MainEv.connectAttempt u ∉ main_trace cli env connectFails target := by
  have hne : missing_params
      (resolve cli.path env.path) (resolve cli.api_key env.api_key)
      (resolve cli.instance_id env.instance_id) (resolve cli.pool_id env.pool_id)
      ≠ [] := by
    rcases h with h | h | h | h <;> simp [missing_params, h]
  have htrace : main_trace cli env connectFails target =
      [MainEv.configError (missing_params
        (resolve cli.path env.path) (resolve cli.api_key env.api_key)
        (resolve cli.instance_id env.instance_id) (resolve cli.pool_id env.pool_id))] := by
    simp only [main_trace, hne, if_true]
    simp [hne]
  refine ⟨htrace, ?_, ?_, ?_, ?_, ?_⟩
  · intro hx
    simp [missing_params, hx]
  · intro hx
    simp [missing_params, hx]
  · intro hx
    simp [missing_params, hx]
  · intro hx
    simp [missing_params, hx]
  · intro u
    rw [htrace]
    simp

/-- Witness for `config_validation_aggregated` (Scenario E): `api_key`
and `pool_id` both missing, both reported in the one error. -/
theorem config_validation_aggregated_witness :
    main_trace (⟨some "data", none, some "inst", some ""⟩ : Config)
      (⟨none, none, none, none⟩ : Config) false Target.invalid
      = [MainEv.configError ["api_key", "pool_id"]] ∧
    "api_key" ∈ (["api_key", "pool_id"] : List String) ∧
    "pool_id" ∈ (["api_key", "pool_id"] : List String) := by
  have hmain := config_validation_aggregated
    (⟨some "data", none, some "inst", some ""⟩ : Config)
    (⟨none, none, none, none⟩ : Config) false Target.invalid
    (Or.inr (Or.inl rfl))
  refine ⟨?_, by decide, by decide⟩
  have hlist : missing_params
      (resolve (some "data") none) (resolve none none)
      (resolve (some "inst") none) (resolve (some "") none)
      = ["api_key", "pool_id"] := by decide
  rw [← hlist]
  exact hmain.1

/-! ### Helper lemmas about the directory loop of `main` -/

/-- The file name carried by a `processFile` event. -/
def fileNameOf : MainEv → Option String
  | MainEv.processFile n => some n
  | _ => none

/-- Recognizer for the between-files sleep event. -/
def isSleepBetween : MainEv → Bool
  | MainEv.sleepBetween => true
  | _ => false

theorem filesLoop_nil : filesLoop [] = [] := rfl

theorem filesLoop_cons (f : String) (rest : List String) :
    filesLoop (f :: rest) =
      [MainEv.processFile f]
        ++ (if rest.length ≠ 0 then [MainEv.sleepBetween] else [])
        ++ filesLoop rest := by
  unfold filesLoop
  rw [List.length_cons, List.range_succ_eq_map, List.flatMap_cons, List.flatMap_map]
  congr 1
  · congr 1
    apply if_congr _ rfl rfl
    omega
  · rw [List.flatMap_def, List.flatMap_def]
    congr 1
    apply List.map_congr_left
    intro i _
    rw [List.getD_cons_succ]
    congr 1
    apply if_congr _ rfl rfl
    omega

theorem filesLoop_names (files : List String) :
    (filesLoop files).filterMap fileNameOf = files := by
  induction files with
  | nil => rfl
  | cons f rest ih =>
    rw [filesLoop_cons, List.filterMap_append, List.filterMap_append, ih]
    cases rest <;> simp [fileNameOf]

theorem filesLoop_sleeps (files : List String) :
    (filesLoop files).countP (fun e => isSleepBetween e) = files.length - 1 := by
  induction files with
  | nil => rfl
  | cons f rest ih =>
    rw [filesLoop_cons, List.countP_append, List.countP_append, ih]
    cases rest with
    | nil => rfl
    | cons r rs =>
      simp [isSleepBetween, List.countP_cons]
      omega

theorem filesLoop_ne_nil (f : String) (rest : List String) :
    filesLoop (f :: rest) ≠ [] := by
  rw [filesLoop_cons]
  simp

theorem filesLoop_last (files : List String) (h : files ≠ []) :
    (filesLoop files).getLast?
      = some (MainEv.processFile (files.getD (files.length - 1) "")) := by
  induction files with
  | nil => exact absurd rfl h
  | cons f rest ih =>
    rw [filesLoop_cons]
    cases rest with
    | nil => rfl
    | cons r rs =>
      have hrec := ih (by simp)
      rw [List.getLast?_append, List.getLast?_append, hrec]
      simp

theorem filesLoop_mem (files : List String) :
    ∀ e ∈ filesLoop files,
      (∃ f, e = MainEv.processFile f) ∨ e = MainEv.sleepBetween := by
  induction files with
  | nil => intro e he; cases he
  | cons f rest ih =>
    intro e he
    rw [filesLoop_cons, List.mem_append, List.mem_append] at he
    rcases he with (he | he) | he
    · exact Or.inl ⟨f, by simpa using he⟩
    · rcases Nat.eq_zero_or_pos rest.length with hr | hr
      · rw [if_neg (by omega)] at he
        cases he
      · rw [if_pos (by omega)] at he
        right
        simpa using he
    · exact ih e he

/-- C7. Directory handling of `main` (lines 218-239): when the
directory contains supported files, exactly the immediate regular files
with a supported extension are processed, in enumeration order, with one
pacing sleep between consecutive files and none after the last (the last
event is the last file's processing), and the trace contains nothing but
file processing and sleeps (no failure); when no supported file is
present, the warning is reported and nothing else happens; a file name
whose extension is unsupported is never in the processed list; and an
invalid target yields exactly the `InvalidPath` failure. -/
theorem directory_handling (es : List DirEntry) :
    (supportedFiles es ≠ [] →
      (processTarget (Target.dir es)).filterMap fileNameOf = supportedFiles es ∧
      (processTarget (Target.dir es)).countP (fun e => isSleepBetween e)
        = (supportedFiles es).length - 1 ∧
      (processTarget (Target.dir es)).getLast?
        = some (MainEv.processFile
            ((supportedFiles es).getD ((supportedFiles es).length - 1) "")) ∧
      ∀ e ∈ processTarget (Target.dir es),
        (∃ f, e = MainEv.processFile f) ∨ e = MainEv.sleepBetween) ∧
    (supportedFiles es = [] →
      processTarget (Target.dir es) = [MainEv.noFilesWarning]) ∧
    (∀ nm, get_file_extension nm ∉ SUPPORTED → nm ∉ supportedFiles es) ∧
    processTarget Target.invalid = [MainEv.invalidPath] := by
  refine ⟨?_, ?_, ?_, rfl⟩
  · intro hne
    have hpt : processTarget (Target.dir es) = filesLoop (supportedFiles es) := by
      simp only [processTarget, hne, if_false]
    rw [hpt]
    exact ⟨filesLoop_names _, filesLoop_sleeps _, filesLoop_last _ hne, filesLoop_mem _⟩
  · intro hnil
    simp only [processTarget, hnil, if_true]
  · intro nm hns hmem
    rw [supportedFiles, List.mem_filter] at hmem
    exact hns (by simpa using hmem.2)

/-- Witness for `directory_handling` (Scenario D): a directory with an
unsupported `.txt` file and a supported `.csv` file. -/
theorem directory_handling_witness :
    supportedFiles [⟨"a.txt", true⟩, ⟨"b.csv", true⟩] = ["b.csv"] ∧
    (processTarget (Target.dir [⟨"a.txt", true⟩, ⟨"b.csv", true⟩])).filterMap fileNameOf
      = supportedFiles [⟨"a.txt", true⟩, ⟨"b.csv", true⟩] ∧
    "a.txt" ∉ supportedFiles [⟨"a.txt", true⟩, ⟨"b.csv", true⟩] ∧
    processTarget Target.invalid = [MainEv.invalidPath] := by
  have hmain := directory_handling [⟨"a.txt", true⟩, ⟨"b.csv", true⟩]
  refine ⟨by decide, (hmain.1 (by decide)).1, ?_, hmain.2.2.2⟩
  exact hmain.2.2.1 "a.txt" (by decide)

end Celonis
